import Mathlib

/-!
Verification of the stack lifecycle engine (stacks/cf.py, stacks/aws.py).

The Python source is shallowly embedded: Python dicts become insertion-ordered
association lists, the MD5 helper from the external hashlib library is a
function parameter, remote calls are recorded as explicit action values, and
`sorted` (a stable sort keyed by timestamp) is modelled by the stable
`List.insertionSort` on the timestamp order.
-/

namespace Stacks

/-! ## Python dict model

A Python dict is an insertion-ordered association list with unique keys.
`dictSet` models `d[k] = v` (replace in place if the key exists, else append),
`dictUpdate` models `d.update(other)`, `dictGet?` models `d.get(k)`. -/

abbrev Dict := List (String × String)

def dictSet (d : Dict) (k v : String) : Dict :=
  match d with
  | [] => [(k, v)]
  | p :: rest => if p.1 == k then (k, v) :: rest else p :: dictSet rest k v

def dictUpdate (d : Dict) (upd : Dict) : Dict :=
  upd.foldl (fun acc p => dictSet acc p.1 p.2) d

def dictGet? (d : Dict) (k : String) : Option String :=
  (d.find? (fun p => p.1 == k)).map (fun p => p.2)

/-! ## Metadata and the tag resolver (cf.py lines 168-186, 246-257)

`MetadataDoc` is the optional first YAML document: `name`, `disable_rollback`
and the `tags` list of key/value entries.  An absent metadata document (Python
`None`, or the falsy empty dict) is `Option.none`. -/

structure MetadataDoc where
  name : Option String := none
  disable_rollback : Option Bool := none
  tags : List (String × String) := []
deriving Repr, DecidableEq

/-- Embeds `_extract_tags` (cf.py 246-252): builds a dict from the metadata
tags list, later entries overwriting earlier ones with the same key. -/
def extractTags (metadata : MetadataDoc) : Dict :=
  metadata.tags.foldl (fun acc p => dictSet acc p.1 p.2) []

/-- Embeds the `default_tags` literal of `create_stack` (cf.py 172-176); the
digest function stands for `_calc_md5` from the external hashlib library. -/
def defaultTags (env digest : String) : Dict :=
  [("Env", env), ("MD5Sum", digest)]

/-- Embeds the tag resolution of `create_stack` (cf.py 178-186):
with metadata, `tags = _extract_tags(metadata)` then `tags.update(default_tags)`;
without metadata, `tags = default_tags`. -/
def resolveTags (env : String) (md5 : String → String) (tpl : String)
    (metadata : Option MetadataDoc) : Dict :=
  match metadata with
  | some m => dictUpdate (extractTags m) (defaultTags env (md5 tpl))
  | none => defaultTags env (md5 tpl)

/-! ## Document splitter (cf.py 39-58, `gen_template`)

The rendered text parses into a list of documents; the document type is
abstract.  `len(docs) == 2` returns `(docs[1], docs[0])`; every other length
returns `(docs[0], None)`, which for an empty stream is an uncaught
`IndexError`, modelled as `Option.none`. -/

def splitDocs {Doc : Type} (docs : List Doc) : Option (Doc × Option Doc) :=
  if docs.length = 2 then
    match docs with
    | a :: b :: _ => some (b, some a)
    | _ => none
  else
    match docs with
    | a :: _ => some (a, none)
    | [] => none

/-! ## Retry wrapper (aws.py 5-21, `throttling_retry`)

A wrapped call is a sequence of invocation outcomes `f : Nat → CallOutcome α`
(`f i` is what the i-th invocation of the underlying function does).  The
wrapper loops with a `retries` counter starting at 0; a classified throttling
error with `retries <= 3` sleeps `3 * 2 ^ retries` seconds and retries, any
other error is re-raised.  The result records the returned value or raised
error together with the list of sleep durations. -/

inductive CallOutcome (α : Type) where
  | ok (v : α)
  | err (code : String) (msg : String)
deriving Repr, DecidableEq

def isThrottlingCode (code : String) : Bool :=
  code == "Throttling" || code == "RequestLimitExceeded"

def retryGo {α : Type} (f : Nat → CallOutcome α) (i retries : Nat) :
    Except (String × String) α × List Nat :=
  match f i with
  | .ok v => (.ok v, [])
  | .err code msg =>
      if h : isThrottlingCode code = true ∧ retries ≤ 3 then
        let r := retryGo f (i + 1) (retries + 1)
        (r.1, 3 * 2 ^ retries :: r.2)
      else (.error (code, msg), [])
termination_by 4 - retries
decreasing_by omega

/-- Embeds `retry_call`: every wrapped call starts with a fresh counter. -/
def retryCall {α : Type} (f : Nat → CallOutcome α) :
    Except (String × String) α × List Nat :=
  retryGo f 0 0

/-- The outcome is a throttling-classified error. -/
def isThrottleErr {α : Type} : CallOutcome α → Prop
  | .ok _ => False
  | .err code _ => isThrottlingCode code = true

/-- A call sequence failing with a throttling error on the first `n`
invocations and returning 42 afterwards. -/
def throttleThenOk (n : Nat) : Nat → CallOutcome Nat := fun i =>
  if i < n then .err "Throttling" "Rate exceeded" else .ok 42

/-! ## Event tailer (cf.py 286-340)

A `describe_stack_events` response carries a page of events, whether a
pagination token was returned, and the stack status observed by the
accompanying `get_stack_status` call.  A tailing session consumes the list of
successive responses.  `get_events` (cf.py 286-294) sorts each page by
timestamp before handing it to `print_events`; Python `sorted` is a stable
sort, embedded as `List.insertionSort` on the timestamp order. -/

structure Event where
  eventId : String
  timestamp : Nat
  resourceStatus : String
  resourceType : String
  logicalResourceId : String
  resourceStatusReason : String
deriving Repr, DecidableEq

def tsLe (a b : Event) : Prop := a.timestamp ≤ b.timestamp

instance : DecidableRel tsLe := fun a b =>
  inferInstanceAs (Decidable (a.timestamp ≤ b.timestamp))

instance : IsTotal Event tsLe := ⟨fun a b => Nat.le_total a.timestamp b.timestamp⟩

instance : IsTrans Event tsLe := ⟨fun _ _ _ h h' => Nat.le_trans h h'⟩

/-- Embeds `sorted_events` (cf.py 304-306). -/
def sortedEvents (events : List Event) : List Event :=
  List.insertionSort tsLe events

structure FetchIter where
  page : List Event
  hasNext : Bool
  status : Option String
deriving Repr, DecidableEq

/-- Embeds the non-follow loop of `print_events` (cf.py 316-335): each
iteration extends the accumulator with the sorted page, then breaks when the
accumulated count reaches `lines` or no pagination token was returned.
Returns the accumulator and the status observed at the last iteration. -/
def boundedRun (lines : Nat) : List FetchIter → List Event → List Event × Option String
  | [], acc => (acc, none)
  | it :: rest, acc =>
      let acc2 := acc ++ sortedEvents it.page
      if lines ≤ acc2.length ∨ it.hasNext = false then (acc2, it.status)
      else boundedRun lines rest acc2

/-- Embeds `print_events` in bounded mode (cf.py 309-340 with `follow`
false): run the loop, then display `events_display[:lines]` and return the
final status. -/
def printEventsBounded (lines : Nat) (iters : List FetchIter) :
    List Event × Option String :=
  let r := boundedRun lines iters []
  (r.1.take lines, r.2)

/-- Number of iterations the bounded loop executes, given the count already
accumulated; the declarative counterpart used to characterise `boundedRun`. -/
def stopCount (lines : Nat) : List FetchIter → Nat → Nat
  | [], _ => 0
  | it :: rest, seen =>
      let n := seen + (sortedEvents it.page).length
      if lines ≤ n ∨ it.hasNext = false then 1 else 1 + stopCount lines rest n

/-- Number of events in the first `j` sorted pages. -/
def prefixCount (iters : List FetchIter) (j : Nat) : Nat :=
  ((iters.take j).map (fun it => (sortedEvents it.page).length)).sum

/-- Status carried by the response at 1-based position `k`. -/
def iterStatusAt (iters : List FetchIter) (k : Nat) : Option String :=
  match iters[k - 1]? with
  | some it => it.status
  | none => none

/-- Whether the response at 1-based position `j` returned a pagination token. -/
def iterHasNextAt (iters : List FetchIter) (j : Nat) : Bool :=
  match iters[j - 1]? with
  | some it => it.hasNext
  | none => false

/-- A complete response trace: the final response returns no pagination
token (the service always terminates pagination). -/
def wfTrace : List FetchIter → Bool
  | [] => true
  | [it] => !it.hasNext
  | _ :: rest => wfTrace rest

/-- Embeds the follow-mode loop of `print_events` (cf.py 316-329): each
iteration filters the sorted page to events not yet seen and not before the
cutoff, prints the batch if non-empty and only then marks the whole page as
seen, and stops when the status is no longer in progress and no pagination
token remains.  `inProg` classifies a status as belonging to
IN_PROGRESS_STACK_STATES (stacks/states.py, not part of the sources).
Returns the list of printed batches. -/
def followDisp (fromTs : Nat) (seen : List String) (page : List Event) : List Event :=
  page.filter (fun e => !(seen.contains e.eventId) && decide (fromTs ≤ e.timestamp))

def followSeenNext (fromTs : Nat) (seen : List String) (page : List Event) : List String :=
  if (followDisp fromTs seen page).isEmpty then seen
  else seen ++ page.map (fun e => e.eventId)

def followPrinted (fromTs : Nat) (seen : List String) (page : List Event) :
    List (List Event) :=
  if (followDisp fromTs seen page).isEmpty then [] else [followDisp fromTs seen page]

def followRun (inProg : Option String → Bool) (fromTs : Nat) :
    List FetchIter → List String → List (List Event)
  | [], _ => []
  | it :: rest, seen =>
      if inProg it.status = false ∧ it.hasNext = false then
        followPrinted fromTs seen (sortedEvents it.page)
      else
        followPrinted fromTs seen (sortedEvents it.page) ++
          followRun inProg fromTs rest (followSeenNext fromTs seen (sortedEvents it.page))

/-- Concrete events used in witnesses and counterexamples. -/
def evA : Event := ⟨"event-a", 1, "CREATE_IN_PROGRESS", "type", "res", ""⟩

def evB : Event := ⟨"event-b", 2, "CREATE_COMPLETE", "type", "res", ""⟩

/-- The display the C4 claim text describes for bounded mode: sort the full
accumulated set by timestamp ascending and keep only the most recent `lines`
entries.  Stated from the claim words, for comparison with the code. -/
def boundedClaimDisplay (lines : Nat) (iters : List FetchIter) : List Event :=
  let acc := (boundedRun lines iters []).1
  let sortedAll := sortedEvents acc
  sortedAll.drop (sortedAll.length - lines)

/-! ## Substring containment (Python `s in msg`) -/

def charsPre : List Char → List Char → Bool
  | [], _ => true
  | _ :: _, [] => false
  | a :: as, b :: bs => a == b && charsPre as bs

def charsIn (needle : List Char) : List Char → Bool
  | [] => needle.isEmpty
  | c :: rest => charsPre needle (c :: rest) || charsIn needle rest

/-- Whether `needle` occurs as a contiguous substring of `haystack`. -/
def strContainsSub (haystack needle : String) : Bool :=
  charsIn needle.data haystack.data

/-! ## Stack change driver (cf.py 168-243, `create_stack`)

The relevant configuration keys and external collaborators: the environment
name, the region, the optional `templates_bucket_name` override and the blob
storage endpoint URL (`s3.meta.endpoint_url`).  The remote calls made by
`create_stack` are recorded as `RemoteAction` values in execution order; the
outcome of the one create/update API call is a parameter (`apiErr`), since it
is produced by the remote service. -/

structure Config where
  env : String
  region : String
  templates_bucket_name : Option String := none
  s3_endpoint : String := ""
deriving Repr, DecidableEq

/-- Embeds the bucket naming of `upload_template` (cf.py 84):
`config.get('templates_bucket_name', '{env}-stacks-{region}')` with the
braces filled in. -/
def bucketName (cfg : Config) : String :=
  match cfg.templates_bucket_name with
  | some b => b
  | none => cfg.env ++ "-stacks-" ++ cfg.region

/-- Embeds the key layout of `upload_template` (cf.py 88-89):
`'{env}/{stack_name}/{md5 digest}'` with the braces filled in. -/
def uploadKey (cfg : Config) (md5 : String → String) (tpl stackName : String) : String :=
  cfg.env ++ "/" ++ stackName ++ "/" ++ md5 tpl

/-- Embeds `upload_template` (cf.py 82-95): the bucket, the key under which
the body is stored, and the returned URL `'{endpoint}/{bucket}/{key}'`. -/
def uploadTemplate (cfg : Config) (md5 : String → String) (tpl stackName : String) :
    String × String × String :=
  (bucketName cfg, uploadKey cfg md5 tpl stackName,
    cfg.s3_endpoint ++ "/" ++ bucketName cfg ++ "/" ++ uploadKey cfg md5 tpl stackName)

inductive TplRef where
  | body (s : String)
  | url (s : String)
deriving Repr, DecidableEq

/-- One `create_stack`/`update_stack` API call: which of the two was invoked,
the stack name, the inline body or URL, the tag list, and the DisableRollback
argument — `none` when the parameter is omitted from the call (cf.py 226-227),
`some v` when it is passed with value `v` (`v` itself is an `Option Bool`
because Python may pass `None`). -/
structure ApiCall where
  isUpdate : Bool
  stackName : String
  tpl : TplRef
  tags : Dict
  disableRollback : Option (Option Bool)
deriving Repr, DecidableEq

inductive RemoteAction where
  | describeStatus (stackName : String)
  | s3Put (bucket key bodyText : String)
  | apiCall (c : ApiCall)
deriving Repr, DecidableEq

inductive CreateResult where
  | exit0 (msg : String)
  | exit1 (msg : String)
  | dryRun
  | ok (stackName : String)
deriving Repr, DecidableEq

/-- Python truthiness of an optional string: `None` and `''` are falsy. -/
def strFalsy : Option String → Bool
  | none => true
  | some s => s == ""

def metaName : Option MetadataDoc → Option String
  | some m => m.name
  | none => none

/-- The resolved `disable_rollback`: `metadata.get('disable_rollback')` when
metadata is present (possibly Python `None`), else the literal `False`
(cf.py 182, 186). -/
def metaDisableRollback : Option MetadataDoc → Option Bool
  | some m => m.disable_rollback
  | none => some false

/-- Embeds the name resolution of `create_stack` (cf.py 188-192). -/
def resolveStackName (arg metaN : Option String) : Option String :=
  let n := if strFalsy arg then metaN else arg
  if strFalsy n then none else n

def nonErrorMessages : List String :=
  ["No updates are to be performed", "already exists"]

/-- The `stack_exists` probe made while evaluating
`update and create_on_update and not stack_exists(...)`; by short-circuit
evaluation it runs exactly when `update and create_on_update` (cf.py 208, 221). -/
def existsChecks (update create_on_update : Bool) (stack_name : String) :
    List RemoteAction :=
  if update && create_on_update then [RemoteAction.describeStatus stack_name] else []

/-- Embeds the try-block of `create_stack` (cf.py 205-231): the transport
decision on `tpl_size > 51200` and the create/update dispatch, returning the
actions performed before the API call together with the API call made. -/
def createStackDispatch (md5 : String → String) (cfg : Config) (stack_name tpl : String)
    (tags : Dict) (disable_rollback : Option Bool)
    (update create_on_update stackExists : Bool) : List RemoteAction × ApiCall :=
  if 51200 < tpl.length then
    if update && create_on_update && !stackExists then
      (RemoteAction.s3Put (uploadTemplate cfg md5 tpl stack_name).1
          (uploadTemplate cfg md5 tpl stack_name).2.1 tpl ::
            existsChecks update create_on_update stack_name,
        ApiCall.mk false stack_name (.url (uploadTemplate cfg md5 tpl stack_name).2.2)
          tags (some disable_rollback))
    else if update then
      (RemoteAction.s3Put (uploadTemplate cfg md5 tpl stack_name).1
          (uploadTemplate cfg md5 tpl stack_name).2.1 tpl ::
            existsChecks update create_on_update stack_name,
        ApiCall.mk true stack_name (.url (uploadTemplate cfg md5 tpl stack_name).2.2)
          tags (some disable_rollback))
    else
      ([RemoteAction.s3Put (uploadTemplate cfg md5 tpl stack_name).1
          (uploadTemplate cfg md5 tpl stack_name).2.1 tpl],
        ApiCall.mk false stack_name (.url (uploadTemplate cfg md5 tpl stack_name).2.2)
          tags (some disable_rollback))
  else
    if update && create_on_update && !stackExists then
      (existsChecks update create_on_update stack_name,
        ApiCall.mk false stack_name (.body tpl) tags (some disable_rollback))
    else if update then
      (existsChecks update create_on_update stack_name,
        ApiCall.mk true stack_name (.body tpl) tags none)
    else
      ([], ApiCall.mk false stack_name (.body tpl) tags (some disable_rollback))

/-- Embeds `create_stack` (cf.py 168-243).  `gen_template` has already split
the rendered body `tpl` from the optional metadata document.  `stackExists`
is the answer the `stack_exists` probe would give, and `apiErr` is the
message of the `ClientError` raised by the API call, if any. -/
def createStack (md5 : String → String) (cfg : Config) (stackNameArg : Option String)
    (tpl : String) (metadata : Option MetadataDoc)
    (update dry create_on_update stackExists : Bool)
    (apiErr : Option String) : List RemoteAction × CreateResult :=
  match resolveStackName stackNameArg (metaName metadata) with
  | none =>
      ([], .exit1 "Stack name must be specified via command line argument or stack metadata.")
  | some stack_name =>
      if dry then ([], .dryRun)
      else
        let dc := createStackDispatch md5 cfg stack_name tpl
          (resolveTags cfg.env md5 tpl metadata) (metaDisableRollback metadata)
          update create_on_update stackExists
        let actions := dc.1 ++ [RemoteAction.apiCall dc.2]
        match apiErr with
        | none => (actions, .ok stack_name)
        | some msg =>
            if nonErrorMessages.any (fun s => strContainsSub msg s) then
              (actions, .exit0 msg)
            else (actions, .exit1 msg)

/-! ## Delete path (cf.py 260-283, `delete_stack`) -/

def YES : List String := ["y", "Y", "yes", "YES", "Yes"]

inductive DeleteResult where
  | deleted
  | abortExit0
  | exit0 (msg : String)
  | exit1 (msg : String)
deriving Repr, DecidableEq

/-- Embeds `delete_stack`: with `confirm` the response is forced to yes,
otherwise the interactive `userResponse` is consulted; `deleteErr` is the
message of the `ClientError` raised by the remote delete, if any. -/
def deleteStack (confirm : Bool) (userResponse : String)
    (deleteErr : Option String) : DeleteResult :=
  let response := if confirm then "yes" else userResponse
  if YES.contains response then
    match deleteErr with
    | none => .deleted
    | some msg =>
        if strContainsSub msg "does not exist" then .exit0 msg else .exit1 msg
  else .abortExit0

/-! ## Variable validator (cf.py 39-47, 61-70)

`find_undeclared_variables` yields a Python set; `requiredIter` is that set
in its (unspecified, hash-dependent) iteration order.  The set differences
preserve membership; the join in the error message iterates in set order. -/

def missingVars (requiredIter configKeys builtinNames : List String) : List String :=
  requiredIter.filter
    (fun v => !(configKeys.contains v) && !(builtinNames.contains v))

/-- Embeds `_check_missing_vars` (cf.py 61-70): `some msg` is the fatal
`print` + `sys.exit(1)` outcome, `none` means the check passed. -/
def checkMissingVars (requiredIter configKeys builtinNames : List String) :
    Option String :=
  if 0 < (missingVars requiredIter configKeys builtinNames).length then
    some ("Required properties not set: " ++
      String.intercalate "," (missingVars requiredIter configKeys builtinNames))
  else none

/-- Embeds the `gen_template` pipeline (cf.py 39-58): the missing-variable
check runs first, and only if it passes is the template rendered
(`tpl.render(config)` plus the YAML load, abstracted as `render`) and split. -/
def genTemplate {Doc : Type} (requiredIter configKeys builtinNames : List String)
    (render : Unit → List Doc) : Except String (Doc × Option Doc) :=
  match checkMissingVars requiredIter configKeys builtinNames with
  | some msg => .error msg
  | none =>
      match splitDocs (render ()) with
      | some r => .ok r
      | none => .error "document index out of range"

/-- A fixed digest function used by witnesses. -/
def md5c : String → String := fun _ => "d41d8cd98f00b204e9800998ecf8427e"

/-- A rendered body of exactly 51200 characters, the inline limit. -/
def tplBoundary : String := String.mk (List.replicate 51200 'a')

/-- A configuration used by witnesses. -/
def cfgW : Config := ⟨"dev", "eu-west-1", none, "https://s3.example"⟩

end Stacks

namespace Stacks

/-! ## Helper lemmas for the dict model -/

theorem dictGet?_nil (k : String) : dictGet? [] k = none := rfl

theorem dictGet?_dictSet_self (d : Dict) (k v : String) :
    dictGet? (dictSet d k v) k = some v := by
  induction d with
  | nil => simp [dictSet, dictGet?, List.find?]
  | cons p rest ih =>
    by_cases hp : (p.1 == k) = true
    · simp [dictSet, dictGet?, List.find?, hp]
    · have hp' : (p.1 == k) = false := by
        cases hpk : p.1 == k
        · rfl
        · exact absurd hpk hp
      simp only [dictSet, hp', Bool.false_eq_true, if_false]
      simpa [dictGet?, List.find?, hp'] using ih

theorem dictGet?_dictSet_ne (d : Dict) (k k' v : String) (hne : (k' == k) = false) :
    dictGet? (dictSet d k v) k' = dictGet? d k' := by
  have hkk' : (k == k') = false := by
    cases hkk : k == k'
    · rfl
    · have : k = k' := by simpa using hkk
      subst this
      simp at hne
  induction d with
  | nil => simp [dictSet, dictGet?, List.find?, hkk']
  | cons p rest ih =>
    by_cases hp : (p.1 == k) = true
    · have hpk : p.1 = k := by simpa using hp
      have hpk' : (p.1 == k') = false := by rw [hpk]; exact hkk'
      simp [dictSet, dictGet?, List.find?, hp, hpk', hkk']
    · have hp' : (p.1 == k) = false := by
        cases hpk : p.1 == k
        · rfl
        · exact absurd hpk hp
      by_cases hq : (p.1 == k') = true
      · simp [dictSet, dictGet?, List.find?, hp', hq]
      · have hq' : (p.1 == k') = false := by
          cases hpk : p.1 == k'
          · rfl
          · exact absurd hpk hq
        simp only [dictSet, hp', Bool.false_eq_true, if_false]
        simpa [dictGet?, List.find?, hp', hq'] using ih

theorem resolveTags_env (env : String) (md5 : String → String) (tpl : String)
    (metadata : Option MetadataDoc) :
    dictGet? (resolveTags env md5 tpl metadata) "Env" = some env := by
  cases metadata with
  | none => rfl
  | some m =>
    show dictGet?
      (dictSet (dictSet (extractTags m) "Env" env) "MD5Sum" (md5 tpl)) "Env" = some env
    rw [dictGet?_dictSet_ne _ _ _ _ (by decide)]
    exact dictGet?_dictSet_self _ _ _

theorem resolveTags_md5 (env : String) (md5 : String → String) (tpl : String)
    (metadata : Option MetadataDoc) :
    dictGet? (resolveTags env md5 tpl metadata) "MD5Sum" = some (md5 tpl) := by
  cases metadata with
  | none => rfl
  | some m =>
    show dictGet?
      (dictSet (dictSet (extractTags m) "Env" env) "MD5Sum" (md5 tpl)) "MD5Sum" =
      some (md5 tpl)
    exact dictGet?_dictSet_self _ _ _

/-- C1: for every metadata tag map and rendered body, the resolved TagSet
contains the protected keys Env and MD5Sum, with Env bound to the configured
environment and MD5Sum bound to the digest of the rendered body, overwriting
any same-named key supplied by metadata tags; with no metadata the TagSet is
exactly the two protected tags. -/
theorem tag_protection (env : String) (md5 : String → String) (tpl : String)
    (metadata : Option MetadataDoc) :
    dictGet? (resolveTags env md5 tpl metadata) "Env" = some env ∧
    dictGet? (resolveTags env md5 tpl metadata) "MD5Sum" = some (md5 tpl) ∧
    resolveTags env md5 tpl none = [("Env", env), ("MD5Sum", md5 tpl)] :=
  ⟨resolveTags_env env md5 tpl metadata, resolveTags_md5 env md5 tpl metadata, rfl⟩

/-- C2 counterexample: a three-document stream is not a fatal parse error;
`gen_template` returns the first document as the body with no metadata. -/
theorem splitDocs_three_docs : splitDocs ([0, 1, 2] : List Nat) = some (0, none) := by
  decide

/-! ## Retry wrapper lemmas -/

theorem retryGo_ok {α : Type} (f : Nat → CallOutcome α) (i retries : Nat) (v : α)
    (hf : f i = .ok v) : retryGo f i retries = (.ok v, []) := by
  rw [retryGo, hf]

theorem retryGo_throttle {α : Type} (f : Nat → CallOutcome α) (i retries : Nat)
    (code msg : String) (hf : f i = .err code msg)
    (hth : isThrottlingCode code = true) (hr : retries ≤ 3) :
    retryGo f i retries =
      ((retryGo f (i + 1) (retries + 1)).1,
        3 * 2 ^ retries :: (retryGo f (i + 1) (retries + 1)).2) := by
  rw [retryGo, hf]
  simp [hth, hr]

theorem retryGo_raise {α : Type} (f : Nat → CallOutcome α) (i retries : Nat)
    (code msg : String) (hf : f i = .err code msg)
    (h : ¬(isThrottlingCode code = true ∧ retries ≤ 3)) :
    retryGo f i retries = (.error (code, msg), []) := by
  rw [retryGo, hf]
  simp only [dif_neg h]

/-- Destructs a throttling outcome into its code and message. -/
theorem throttle_err_elim {α : Type} (o : CallOutcome α) (h : isThrottleErr o) :
    ∃ code msg, o = .err code msg ∧ isThrottlingCode code = true := by
  cases o with
  | ok v => exact absurd h (by simp [isThrottleErr])
  | err code msg => exact ⟨code, msg, rfl, h⟩

/-- C3 amended: a call raising a throttling-classified error on its first 3
invocations and succeeding on the 4th returns the success value after exactly
3 sleeps of 3, 6 and 12 seconds; a 5th consecutive throttling failure (not
the 4th, which sleeps 24 seconds and retries) propagates the error after 4
sleeps of 3, 6, 12 and 24 seconds; a non-throttling error is re-raised
immediately without any sleep; and the attempt counter starts fresh on each
wrapped call. -/
theorem retry_backoff_spec {α : Type} (f : Nat → CallOutcome α) :
    (∀ v : α, (∀ i, i < 3 → isThrottleErr (f i)) → f 3 = .ok v →
       retryCall f = (.ok v, [3, 6, 12])) ∧
    (∀ code msg, (∀ i, i < 4 → isThrottleErr (f i)) → f 4 = .err code msg →
       isThrottlingCode code = true →
       retryCall f = (.error (code, msg), [3, 6, 12, 24])) ∧
    (∀ code msg, f 0 = .err code msg → isThrottlingCode code = false →
       retryCall f = (.error (code, msg), [])) ∧
    retryCall f = retryGo f 0 0 := by
  refine ⟨?_, ?_, ?_, rfl⟩
  · intro v hth hok
    obtain ⟨c0, m0, hf0, ht0⟩ := throttle_err_elim (f 0) (hth 0 (by omega))
    obtain ⟨c1, m1, hf1, ht1⟩ := throttle_err_elim (f 1) (hth 1 (by omega))
    obtain ⟨c2, m2, hf2, ht2⟩ := throttle_err_elim (f 2) (hth 2 (by omega))
    have e3 : retryGo f 3 3 = (.ok v, []) := retryGo_ok f 3 3 v hok
    have e2 : retryGo f 2 2 = (.ok v, [12]) := by
      rw [retryGo_throttle f 2 2 c2 m2 hf2 ht2 (by omega), e3]; norm_num
    have e1 : retryGo f 1 1 = (.ok v, [6, 12]) := by
      rw [retryGo_throttle f 1 1 c1 m1 hf1 ht1 (by omega), e2]; norm_num
    rw [retryCall, retryGo_throttle f 0 0 c0 m0 hf0 ht0 (by omega), e1]; norm_num
  · intro code msg hth hf4 ht4
    obtain ⟨c0, m0, hf0, ht0⟩ := throttle_err_elim (f 0) (hth 0 (by omega))
    obtain ⟨c1, m1, hf1, ht1⟩ := throttle_err_elim (f 1) (hth 1 (by omega))
    obtain ⟨c2, m2, hf2, ht2⟩ := throttle_err_elim (f 2) (hth 2 (by omega))
    obtain ⟨c3, m3, hf3, ht3⟩ := throttle_err_elim (f 3) (hth 3 (by omega))
    have e4 : retryGo f 4 4 = (.error (code, msg), []) :=
      retryGo_raise f 4 4 code msg hf4 (by omega)
    have e3 : retryGo f 3 3 = (.error (code, msg), [24]) := by
      rw [retryGo_throttle f 3 3 c3 m3 hf3 ht3 (by omega), e4]; norm_num
    have e2 : retryGo f 2 2 = (.error (code, msg), [12, 24]) := by
      rw [retryGo_throttle f 2 2 c2 m2 hf2 ht2 (by omega), e3]; norm_num
    have e1 : retryGo f 1 1 = (.error (code, msg), [6, 12, 24]) := by
      rw [retryGo_throttle f 1 1 c1 m1 hf1 ht1 (by omega), e2]; norm_num
    rw [retryCall, retryGo_throttle f 0 0 c0 m0 hf0 ht0 (by omega), e1]; norm_num
  · intro code msg hf0 hnth
    rw [retryCall]
    exact retryGo_raise f 0 0 code msg hf0 (by simp [hnth])

/-- C3 witness: three throttling failures then a success return the value
after sleeps of 3, 6 and 12 seconds. -/
theorem retry_backoff_spec_witness :
    retryCall (throttleThenOk 3) = (.ok 42, [3, 6, 12]) :=
  (retry_backoff_spec (throttleThenOk 3)).1 42
    (by intro i hi
        interval_cases i <;> simp [throttleThenOk, isThrottleErr, isThrottlingCode])
    (by simp [throttleThenOk])

/-- C3 counterexample: a 4th consecutive throttling failure is not
propagated; the wrapper sleeps 24 seconds and retries, and a success on the
5th invocation is returned to the caller. -/
theorem retry_fourth_failure_retried :
    retryCall (throttleThenOk 4) = (.ok 42, [3, 6, 12, 24]) := by
  have herr : ∀ i, i < 4 → throttleThenOk 4 i = .err "Throttling" "Rate exceeded" := by
    intro i hi
    simp [throttleThenOk, hi]
  have hok : throttleThenOk 4 4 = .ok 42 := by simp [throttleThenOk]
  have ht : isThrottlingCode "Throttling" = true := by decide
  have e4 : retryGo (throttleThenOk 4) 4 4 = (.ok 42, []) := retryGo_ok _ 4 4 42 hok
  have e3 : retryGo (throttleThenOk 4) 3 3 = (.ok 42, [24]) := by
    rw [retryGo_throttle _ 3 3 _ _ (herr 3 (by omega)) ht (by omega), e4]; norm_num
  have e2 : retryGo (throttleThenOk 4) 2 2 = (.ok 42, [12, 24]) := by
    rw [retryGo_throttle _ 2 2 _ _ (herr 2 (by omega)) ht (by omega), e3]; norm_num
  have e1 : retryGo (throttleThenOk 4) 1 1 = (.ok 42, [6, 12, 24]) := by
    rw [retryGo_throttle _ 1 1 _ _ (herr 1 (by omega)) ht (by omega), e2]; norm_num
  rw [retryCall, retryGo_throttle _ 0 0 _ _ (herr 0 (by omega)) ht (by omega), e1]; norm_num

/-! ## Bounded tailer lemmas -/

theorem boundedRun_cons (lines : Nat) (it : FetchIter) (rest : List FetchIter)
    (acc : List Event) :
    boundedRun lines (it :: rest) acc =
      if lines ≤ (acc ++ sortedEvents it.page).length ∨ it.hasNext = false
      then (acc ++ sortedEvents it.page, it.status)
      else boundedRun lines rest (acc ++ sortedEvents it.page) := rfl

theorem stopCount_cons (lines : Nat) (it : FetchIter) (rest : List FetchIter)
    (seen : Nat) :
    stopCount lines (it :: rest) seen =
      if lines ≤ seen + (sortedEvents it.page).length ∨ it.hasNext = false
      then 1 else 1 + stopCount lines rest (seen + (sortedEvents it.page).length) := rfl

theorem stopCount_pos (lines : Nat) (it : FetchIter) (rest : List FetchIter)
    (seen : Nat) : 1 ≤ stopCount lines (it :: rest) seen := by
  rw [stopCount_cons]
  split <;> omega

theorem stopCount_le_length (lines : Nat) :
    ∀ (iters : List FetchIter) (seen : Nat), stopCount lines iters seen ≤ iters.length := by
  intro iters
  induction iters with
  | nil => intro seen; simp [stopCount]
  | cons it rest ih =>
    intro seen
    rw [stopCount_cons]
    split
    · simp
    · have := ih (seen + (sortedEvents it.page).length)
      simp only [List.length_cons]
      omega

theorem iterStatusAt_cons (it : FetchIter) (rest : List FetchIter) (k : Nat)
    (hk : 1 ≤ k) : iterStatusAt (it :: rest) (k + 1) = iterStatusAt rest k := by
  obtain ⟨km, rfl⟩ : ∃ km, k = km + 1 := ⟨k - 1, by omega⟩
  simp [iterStatusAt]

theorem iterHasNextAt_cons (it : FetchIter) (rest : List FetchIter) (k : Nat)
    (hk : 1 ≤ k) : iterHasNextAt (it :: rest) (k + 1) = iterHasNextAt rest k := by
  obtain ⟨km, rfl⟩ : ∃ km, k = km + 1 := ⟨k - 1, by omega⟩
  simp [iterHasNextAt]

theorem prefixCount_cons_succ (it : FetchIter) (rest : List FetchIter) (j : Nat) :
    prefixCount (it :: rest) (j + 1) =
      (sortedEvents it.page).length + prefixCount rest j := by
  simp [prefixCount]

theorem wfTrace_cons (it r : FetchIter) (rs : List FetchIter) :
    wfTrace (it :: r :: rs) = wfTrace (r :: rs) := rfl

theorem boundedRun_eq (lines : Nat) :
    ∀ (iters : List FetchIter) (acc : List Event), wfTrace iters = true →
    boundedRun lines iters acc =
      (acc ++ ((iters.take (stopCount lines iters acc.length)).map
          (fun it => sortedEvents it.page)).flatten,
        iterStatusAt iters (stopCount lines iters acc.length)) := by
  intro iters
  induction iters with
  | nil => intro acc _; simp [boundedRun, stopCount, iterStatusAt]
  | cons it rest ih =>
    intro acc hwf
    rw [boundedRun_cons, stopCount_cons]
    have hlen : (acc ++ sortedEvents it.page).length
        = acc.length + (sortedEvents it.page).length := List.length_append _ _
    by_cases hc : lines ≤ acc.length + (sortedEvents it.page).length ∨ it.hasNext = false
    · rw [if_pos (by rw [hlen]; exact hc), if_pos hc]
      simp [iterStatusAt]
    · rw [if_neg (by rw [hlen]; exact hc), if_neg hc]
      push_neg at hc
      cases rest with
      | nil =>
        exfalso
        have : wfTrace [it] = !it.hasNext := rfl
        rw [this] at hwf
        have : it.hasNext = false := by
          cases h : it.hasNext
          · rfl
          · rw [h] at hwf; simp at hwf
        exact hc.2 this
      | cons r rs =>
        have hwf' : wfTrace (r :: rs) = true := by rw [← wfTrace_cons it]; exact hwf
        rw [ih (acc ++ sortedEvents it.page) hwf', hlen]
        have hk' : 1 ≤ stopCount lines (r :: rs)
            (acc.length + (sortedEvents it.page).length) := stopCount_pos _ _ _ _
        have h1 : 1 + stopCount lines (r :: rs) (acc.length + (sortedEvents it.page).length)
            = stopCount lines (r :: rs) (acc.length + (sortedEvents it.page).length) + 1 := by
          omega
        rw [h1, List.take_succ_cons, List.map_cons, List.flatten_cons,
          ← List.append_assoc, iterStatusAt_cons it (r :: rs) _ hk']

theorem stopCount_min (lines : Nat) :
    ∀ (iters : List FetchIter) (seen : Nat) (j : Nat), 0 < j →
      j < stopCount lines iters seen →
      seen + prefixCount iters j < lines ∧ iterHasNextAt iters j = true := by
  intro iters
  induction iters with
  | nil => intro seen j _ hlt; simp [stopCount] at hlt
  | cons it rest ih =>
    intro seen j hj hlt
    rw [stopCount_cons] at hlt
    by_cases hc : lines ≤ seen + (sortedEvents it.page).length ∨ it.hasNext = false
    · rw [if_pos hc] at hlt; omega
    · rw [if_neg hc] at hlt
      push_neg at hc
      have hnext : it.hasNext = true := by
        cases h : it.hasNext
        · exact absurd h hc.2
        · rfl
      obtain ⟨j', rfl⟩ : ∃ j', j = j' + 1 := ⟨j - 1, by omega⟩
      by_cases hj' : j' = 0
      · subst hj'
        refine ⟨?_, ?_⟩
        · rw [prefixCount_cons_succ]
          have : prefixCount rest 0 = 0 := rfl
          omega
        · simp [iterHasNextAt, hnext]
      · have hj'pos : 0 < j' := by omega
        have hlt' : j' < stopCount lines rest (seen + (sortedEvents it.page).length) := by
          omega
        have := ih (seen + (sortedEvents it.page).length) j' hj'pos hlt'
        refine ⟨?_, ?_⟩
        · rw [prefixCount_cons_succ]
          omega
        · rw [iterHasNextAt_cons it rest j' (by omega)]
          exact this.2

theorem stopCount_stop (lines : Nat) :
    ∀ (iters : List FetchIter) (seen : Nat), wfTrace iters = true → iters ≠ [] →
      lines ≤ seen + prefixCount iters (stopCount lines iters seen) ∨
      iterHasNextAt iters (stopCount lines iters seen) = false := by
  intro iters
  induction iters with
  | nil => intro seen _ h; exact absurd rfl h
  | cons it rest ih =>
    intro seen hwf _
    rw [stopCount_cons]
    by_cases hc : lines ≤ seen + (sortedEvents it.page).length ∨ it.hasNext = false
    · rw [if_pos hc]
      rcases hc with hc | hc
      · left
        rw [prefixCount_cons_succ]
        have : prefixCount rest 0 = 0 := rfl
        omega
      · right
        simp [iterHasNextAt, hc]
    · rw [if_neg hc]
      push_neg at hc
      cases rest with
      | nil =>
        exfalso
        have heq : wfTrace [it] = !it.hasNext := rfl
        rw [heq] at hwf
        have : it.hasNext = false := by
          cases h : it.hasNext
          · rfl
          · rw [h] at hwf; simp at hwf
        exact hc.2 this
      | cons r rs =>
        have hwf' : wfTrace (r :: rs) = true := by rw [← wfTrace_cons it]; exact hwf
        have hk' : 1 ≤ stopCount lines (r :: rs)
            (seen + (sortedEvents it.page).length) := stopCount_pos _ _ _ _
        have h1 : (1 : Nat) + stopCount lines (r :: rs) (seen + (sortedEvents it.page).length)
            = stopCount lines (r :: rs) (seen + (sortedEvents it.page).length) + 1 := by omega
        have := ih (seen + (sortedEvents it.page).length) hwf' (by simp)
        rcases this with h | h
        · left
          rw [h1, prefixCount_cons_succ]
          omega
        · right
          rw [h1, iterHasNextAt_cons it (r :: rs) _ hk']
          exact h

/-- C4 amended: in bounded mode the tailer accumulates per-page-sorted events
by following pagination cursors until the accumulated count reaches the
requested line limit or no further cursor is returned (the stopping iteration
is the first one at which either holds), then displays the FIRST `lines`
entries of the accumulated list — each page individually sorted by timestamp
ascending, pages in fetch order, with no global sort — and returns the stack
status observed at the stopping iteration. -/
theorem bounded_tail_spec (lines : Nat) (iters : List FetchIter)
    (hwf : wfTrace iters = true) :
    printEventsBounded lines iters =
      ((((iters.take (stopCount lines iters 0)).map
          (fun it => sortedEvents it.page)).flatten).take lines,
        iterStatusAt iters (stopCount lines iters 0)) ∧
    stopCount lines iters 0 ≤ iters.length ∧
    (∀ j, 0 < j → j < stopCount lines iters 0 →
      prefixCount iters j < lines ∧ iterHasNextAt iters j = true) ∧
    (iters = [] ∨
      (1 ≤ stopCount lines iters 0 ∧
        (lines ≤ prefixCount iters (stopCount lines iters 0) ∨
          iterHasNextAt iters (stopCount lines iters 0) = false))) := by
  refine ⟨?_, stopCount_le_length lines iters 0, ?_, ?_⟩
  · have h := boundedRun_eq lines iters [] hwf
    unfold printEventsBounded
    rw [h]
    simp
  · intro j hj hlt
    have := stopCount_min lines iters 0 j hj hlt
    simpa using this
  · cases iters with
    | nil => exact Or.inl rfl
    | cons it rest =>
      refine Or.inr ⟨stopCount_pos _ _ _ _, ?_⟩
      have := stopCount_stop lines (it :: rest) 0 hwf (by simp)
      simpa using this

/-- C4 witness: a two-page trace under limit 2 runs past the first page, so
the first page kept the loop going: fewer than 2 events accumulated and a
cursor was present. -/
theorem bounded_tail_spec_witness :
    prefixCount [⟨[evA], true, some "S1"⟩, ⟨[evB], false, some "S2"⟩] 1 < 2 ∧
    iterHasNextAt [⟨[evA], true, some "S1"⟩, ⟨[evB], false, some "S2"⟩] 1 = true :=
  (bounded_tail_spec 2 [⟨[evA], true, some "S1"⟩, ⟨[evB], false, some "S2"⟩]
    (by decide)).2.2.1 1 (by decide) (by decide)

/-- C4 counterexample: with one page holding the timestamp-1 event `evA` and
the timestamp-2 event `evB`, and a line limit of 1, the code displays the
OLDEST entry `evA` (the head of the accumulated ascending list), while the
claim text — sort the accumulated set ascending and display the most recent
`lines` entries — demands `evB`. -/
theorem bounded_not_most_recent :
    (printEventsBounded 1 [⟨[evA, evB], false, some "CREATE_COMPLETE"⟩]).1 = [evA] ∧
    boundedClaimDisplay 1 [⟨[evA, evB], false, some "CREATE_COMPLETE"⟩] = [evB] ∧
    evA ≠ evB := by decide

/-! ## Follow tailer lemmas -/

theorem mem_followDisp (fromTs : Nat) (seen : List String) (page : List Event)
    (e : Event) :
    e ∈ followDisp fromTs seen page ↔
      e ∈ page ∧ e.eventId ∉ seen ∧ fromTs ≤ e.timestamp := by
  unfold followDisp
  rw [List.mem_filter]
  constructor
  · rintro ⟨h1, h2⟩
    rw [Bool.and_eq_true] at h2
    obtain ⟨h2a, h2b⟩ := h2
    refine ⟨h1, ?_, of_decide_eq_true h2b⟩
    intro hmem
    have hcon : seen.contains e.eventId = true := List.elem_iff.mpr hmem
    rw [hcon] at h2a
    simp at h2a
  · rintro ⟨h1, h2, h3⟩
    refine ⟨h1, ?_⟩
    rw [Bool.and_eq_true]
    refine ⟨?_, decide_eq_true h3⟩
    cases hcon : seen.contains e.eventId
    · rfl
    · exact absurd (List.elem_iff.mp hcon) h2

theorem followPrinted_sub (fromTs : Nat) (seen : List String) (page : List Event)
    (b : List Event) (hb : b ∈ followPrinted fromTs seen page) :
    b = followDisp fromTs seen page := by
  unfold followPrinted at hb
  split at hb
  · simp at hb
  · simpa using hb

theorem followRun_cutoff (inProg : Option String → Bool) (fromTs : Nat) :
    ∀ (iters : List FetchIter) (seen : List String) (b : List Event) (e : Event),
      b ∈ followRun inProg fromTs iters seen → e ∈ b → fromTs ≤ e.timestamp := by
  intro iters
  induction iters with
  | nil => intro seen b e hb _; simp [followRun] at hb
  | cons it rest ih =>
    intro seen b e hb he
    simp only [followRun] at hb
    split at hb
    · have hbd := followPrinted_sub _ _ _ _ hb
      subst hbd
      exact ((mem_followDisp _ _ _ _).mp he).2.2
    · rcases List.mem_append.mp hb with hb | hb
      · have hbd := followPrinted_sub _ _ _ _ hb
        subst hbd
        exact ((mem_followDisp _ _ _ _).mp he).2.2
      · exact ih _ b e hb he

theorem followRun_batches_sorted (inProg : Option String → Bool) (fromTs : Nat) :
    ∀ (iters : List FetchIter) (seen : List String) (b : List Event),
      b ∈ followRun inProg fromTs iters seen → List.Sorted tsLe b := by
  intro iters
  induction iters with
  | nil => intro seen b hb; simp [followRun] at hb
  | cons it rest ih =>
    intro seen b hb
    have hsorted : List.Sorted tsLe (sortedEvents it.page) :=
      List.sorted_insertionSort tsLe it.page
    have hfilter : List.Sorted tsLe (followDisp fromTs seen (sortedEvents it.page)) :=
      List.Pairwise.filter _ hsorted
    simp only [followRun] at hb
    split at hb
    · have hbd := followPrinted_sub _ _ _ _ hb
      subst hbd
      exact hfilter
    · rcases List.mem_append.mp hb with hb | hb
      · have hbd := followPrinted_sub _ _ _ _ hb
        subst hbd
        exact hfilter
      · exact ih _ b hb

theorem followRun_nodup (inProg : Option String → Bool) (fromTs : Nat) :
    ∀ (iters : List FetchIter) (seen : List String),
      (∀ it ∈ iters, (it.page.map Event.eventId).Nodup) →
      ((followRun inProg fromTs iters seen).flatten.map Event.eventId).Nodup ∧
      ∀ x ∈ (followRun inProg fromTs iters seen).flatten.map Event.eventId, x ∉ seen := by
  intro iters
  induction iters with
  | nil => intro seen _; simp [followRun]
  | cons it rest ih =>
    intro seen hpages
    have hpage : (it.page.map Event.eventId).Nodup := hpages it (by simp)
    have hsorted : ((sortedEvents it.page).map Event.eventId).Nodup :=
      (((List.perm_insertionSort tsLe it.page).map Event.eventId).nodup_iff).mpr hpage
    have hdisp_sub : (followDisp fromTs seen (sortedEvents it.page)).Sublist
        (sortedEvents it.page) := List.filter_sublist _
    have hdispN : ((followDisp fromTs seen (sortedEvents it.page)).map
        Event.eventId).Nodup :=
      List.Nodup.sublist (List.Sublist.map Event.eventId hdisp_sub) hsorted
    have hdisp_not_seen : ∀ x ∈ (followDisp fromTs seen (sortedEvents it.page)).map
        Event.eventId, x ∉ seen := by
      intro x hx
      obtain ⟨e, he, rfl⟩ := List.mem_map.mp hx
      exact ((mem_followDisp _ _ _ _).mp he).2.1
    have hdisp_in_page : ∀ x ∈ (followDisp fromTs seen (sortedEvents it.page)).map
        Event.eventId, x ∈ (sortedEvents it.page).map Event.eventId := by
      intro x hx
      exact (List.Sublist.map Event.eventId hdisp_sub).subset hx
    have hrest : ∀ it' ∈ rest, (it'.page.map Event.eventId).Nodup := by
      intro it' hit'
      exact hpages it' (by simp [hit'])
    by_cases hd : (followDisp fromTs seen (sortedEvents it.page)).isEmpty = true
    · -- nothing printed this iteration and the seen set is unchanged
      have hprint : followPrinted fromTs seen (sortedEvents it.page) = [] := by
        simp [followPrinted, hd]
      have hseen : followSeenNext fromTs seen (sortedEvents it.page) = seen := by
        simp [followSeenNext, hd]
      simp only [followRun]
      split
      · simp [hprint]
      · obtain ⟨ihN, ihS⟩ := ih seen hrest
        rw [hprint, hseen, List.nil_append]
        exact ⟨ihN, ihS⟩
    · -- the batch is printed and the whole page is marked seen
      have hprint : followPrinted fromTs seen (sortedEvents it.page) =
          [followDisp fromTs seen (sortedEvents it.page)] := by
        simp [followPrinted, hd]
      have hseen : followSeenNext fromTs seen (sortedEvents it.page) =
          seen ++ (sortedEvents it.page).map (fun e => e.eventId) := by
        simp [followSeenNext, hd]
      simp only [followRun]
      split
      · rw [hprint]
        refine ⟨by simpa using hdispN, ?_⟩
        intro x hx
        simp only [List.flatten_cons, List.flatten_nil, List.append_nil] at hx
        exact hdisp_not_seen x hx
      · obtain ⟨ihN, ihS⟩ := ih (followSeenNext fromTs seen (sortedEvents it.page)) hrest
        rw [hprint, List.flatten_append, List.map_append]
        simp only [List.flatten_cons, List.flatten_nil, List.append_nil]
        constructor
        · refine List.Nodup.append hdispN ihN ?_
          intro x hx hx'
          have hx_page : x ∈ (sortedEvents it.page).map Event.eventId :=
            hdisp_in_page x hx
          have hnot : x ∉ seen ++ (sortedEvents it.page).map (fun e => e.eventId) := by
            rw [← hseen]
            exact ihS x hx'
          exact hnot (List.mem_append.mpr (Or.inr (by simpa using hx_page)))
        · intro x hx
          rcases List.mem_append.mp hx with hx | hx
          · exact hdisp_not_seen x hx
          · intro hxseen
            refine ihS x hx ?_
            rw [hseen]
            exact List.mem_append.mpr (Or.inl hxseen)

/-- C5 amended: in follow mode, given fetched pages whose events have
distinct identifiers within each page, the displayed output contains each
identifier at most once even when identifiers repeat across pages, every
displayed batch is in ascending timestamp order, and no event with a
timestamp before the session start cutoff is ever displayed.  In bounded
mode no deduplication is performed: the accumulated pages are displayed as
fetched, so an identifier repeated across pages is displayed repeatedly. -/
theorem follow_dedup_order_cutoff (inProg : Option String → Bool) (fromTs : Nat)
    (iters : List FetchIter)
    (h : ∀ it ∈ iters, (it.page.map Event.eventId).Nodup) :
    ((followRun inProg fromTs iters []).flatten.map Event.eventId).Nodup ∧
    (∀ b ∈ followRun inProg fromTs iters [], List.Sorted tsLe b) ∧
    (∀ b ∈ followRun inProg fromTs iters [], ∀ e ∈ b, fromTs ≤ e.timestamp) :=
  ⟨(followRun_nodup inProg fromTs iters [] h).1,
    fun b hb => followRun_batches_sorted inProg fromTs iters [] b hb,
    fun b hb e he => followRun_cutoff inProg fromTs iters [] b e hb he⟩

/-- C5 witness: a session that fetches the same event on two pages displays
its identifier only once. -/
theorem follow_dedup_order_cutoff_witness :
    ((followRun (fun _ => false) 0
        [⟨[evB], true, some "S"⟩, ⟨[evB], false, some "S"⟩] []).flatten.map
      Event.eventId).Nodup :=
  (follow_dedup_order_cutoff (fun _ => false) 0
    [⟨[evB], true, some "S"⟩, ⟨[evB], false, some "S"⟩] (by decide)).1

/-- C5 counterexample: in bounded mode there is no deduplication — the same
event fetched on two pages is displayed twice, so the displayed output does
not contain each identifier at most once. -/
theorem bounded_duplicate_ids :
    (printEventsBounded 2 [⟨[evA], true, some "S"⟩, ⟨[evA], false, some "S"⟩]).1
      = [evA, evA] ∧
    ¬ (((printEventsBounded 2 [⟨[evA], true, some "S"⟩,
        ⟨[evA], false, some "S"⟩]).1.map Event.eventId).Nodup) := by
  decide

/-! ## Stack change driver lemmas -/

theorem createStack_run (md5 : String → String) (cfg : Config) (arg : Option String)
    (tpl : String) (metadata : Option MetadataDoc)
    (update create_on_update stackExists : Bool) (apiErr : Option String) (sn : String)
    (hres : resolveStackName arg (metaName metadata) = some sn) :
    createStack md5 cfg arg tpl metadata update false create_on_update stackExists apiErr =
      ((createStackDispatch md5 cfg sn tpl (resolveTags cfg.env md5 tpl metadata)
          (metaDisableRollback metadata) update create_on_update stackExists).1 ++
        [RemoteAction.apiCall (createStackDispatch md5 cfg sn tpl
          (resolveTags cfg.env md5 tpl metadata) (metaDisableRollback metadata)
          update create_on_update stackExists).2],
       match apiErr with
       | none => CreateResult.ok sn
       | some msg =>
           if nonErrorMessages.any (fun s => strContainsSub msg s) then
             CreateResult.exit0 msg
           else CreateResult.exit1 msg) := by
  unfold createStack
  rw [hres]
  cases apiErr with
  | none => rfl
  | some msg =>
      by_cases hb : (nonErrorMessages.any fun s => strContainsSub msg s) = true
      · simp [hb]
      · simp [hb]

theorem existsChecks_no_put (update create_on_update : Bool) (sn b k s : String) :
    RemoteAction.s3Put b k s ∉ existsChecks update create_on_update sn := by
  unfold existsChecks
  split <;> simp

theorem dispatch_inline_spec (md5 : String → String) (cfg : Config) (sn tpl : String)
    (tags : Dict) (dr : Option Bool) (update cou ex : Bool)
    (h : ¬ 51200 < tpl.length) :
    createStackDispatch md5 cfg sn tpl tags dr update cou ex =
      if update && cou && !ex then
        (existsChecks update cou sn, ApiCall.mk false sn (.body tpl) tags (some dr))
      else if update then
        (existsChecks update cou sn, ApiCall.mk true sn (.body tpl) tags none)
      else ([], ApiCall.mk false sn (.body tpl) tags (some dr)) := by
  unfold createStackDispatch
  rw [if_neg h]

theorem dispatch_url_spec (md5 : String → String) (cfg : Config) (sn tpl : String)
    (tags : Dict) (dr : Option Bool) (update cou ex : Bool)
    (h : 51200 < tpl.length) :
    createStackDispatch md5 cfg sn tpl tags dr update cou ex =
      if update && cou && !ex then
        (RemoteAction.s3Put (bucketName cfg) (uploadKey cfg md5 tpl sn) tpl ::
            existsChecks update cou sn,
          ApiCall.mk false sn (.url (cfg.s3_endpoint ++ "/" ++ bucketName cfg ++ "/" ++
            uploadKey cfg md5 tpl sn)) tags (some dr))
      else if update then
        (RemoteAction.s3Put (bucketName cfg) (uploadKey cfg md5 tpl sn) tpl ::
            existsChecks update cou sn,
          ApiCall.mk true sn (.url (cfg.s3_endpoint ++ "/" ++ bucketName cfg ++ "/" ++
            uploadKey cfg md5 tpl sn)) tags (some dr))
      else
        ([RemoteAction.s3Put (bucketName cfg) (uploadKey cfg md5 tpl sn) tpl],
          ApiCall.mk false sn (.url (cfg.s3_endpoint ++ "/" ++ bucketName cfg ++ "/" ++
            uploadKey cfg md5 tpl sn)) tags (some dr)) := by
  unfold createStackDispatch
  rw [if_pos h]
  rfl

theorem dispatch_inline_facts (md5 : String → String) (cfg : Config) (sn tpl : String)
    (tags : Dict) (dr : Option Bool) (update cou ex : Bool)
    (h : ¬ 51200 < tpl.length) :
    (∀ b k s, RemoteAction.s3Put b k s ∉
      (createStackDispatch md5 cfg sn tpl tags dr update cou ex).1) ∧
    (createStackDispatch md5 cfg sn tpl tags dr update cou ex).2.tpl = TplRef.body tpl ∧
    (createStackDispatch md5 cfg sn tpl tags dr update cou ex).2.stackName = sn ∧
    (createStackDispatch md5 cfg sn tpl tags dr update cou ex).2.tags = tags := by
  rw [dispatch_inline_spec md5 cfg sn tpl tags dr update cou ex h]
  split
  · exact ⟨fun b k s => existsChecks_no_put update cou sn b k s, rfl, rfl, rfl⟩
  · split
    · exact ⟨fun b k s => existsChecks_no_put update cou sn b k s, rfl, rfl, rfl⟩
    · exact ⟨fun b k s => by simp, rfl, rfl, rfl⟩

theorem dispatch_url_facts (md5 : String → String) (cfg : Config) (sn tpl : String)
    (tags : Dict) (dr : Option Bool) (update cou ex : Bool)
    (h : 51200 < tpl.length) :
    RemoteAction.s3Put (bucketName cfg) (uploadKey cfg md5 tpl sn) tpl ∈
      (createStackDispatch md5 cfg sn tpl tags dr update cou ex).1 ∧
    (createStackDispatch md5 cfg sn tpl tags dr update cou ex).2.tpl =
      TplRef.url (cfg.s3_endpoint ++ "/" ++ bucketName cfg ++ "/" ++
        uploadKey cfg md5 tpl sn) ∧
    (createStackDispatch md5 cfg sn tpl tags dr update cou ex).2.stackName = sn ∧
    (createStackDispatch md5 cfg sn tpl tags dr update cou ex).2.tags = tags := by
  rw [dispatch_url_spec md5 cfg sn tpl tags dr update cou ex h]
  split
  · exact ⟨by simp, rfl, rfl, rfl⟩
  · split
    · exact ⟨by simp, rfl, rfl, rfl⟩
    · exact ⟨by simp, rfl, rfl, rfl⟩

/-- C6: a rendered body of length at most 51200 (including exactly 51200) is
passed inline to the remote call with no blob-storage upload; a body of
length 51201 or more is instead stored in blob storage under the key
env/stack-name/digest — the same digest as the MD5Sum tag — in the bucket
env-stacks-region unless a bucket-name override is configured, and the
resulting URL is passed in place of the inline body. -/
theorem size_threshold_transport (md5 : String → String) (cfg : Config)
    (arg : Option String) (tpl : String) (metadata : Option MetadataDoc)
    (update create_on_update stackExists : Bool) (apiErr : Option String) (sn : String)
    (hres : resolveStackName arg (metaName metadata) = some sn) :
    (tpl.length ≤ 51200 →
      (∀ b k s, RemoteAction.s3Put b k s ∉
        (createStack md5 cfg arg tpl metadata update false create_on_update
          stackExists apiErr).1) ∧
      (∃ c : ApiCall, RemoteAction.apiCall c ∈
          (createStack md5 cfg arg tpl metadata update false create_on_update
            stackExists apiErr).1 ∧
        c.tpl = TplRef.body tpl ∧ c.stackName = sn)) ∧
    (51201 ≤ tpl.length →
      RemoteAction.s3Put (bucketName cfg) (cfg.env ++ "/" ++ sn ++ "/" ++ md5 tpl) tpl ∈
        (createStack md5 cfg arg tpl metadata update false create_on_update
          stackExists apiErr).1 ∧
      (cfg.templates_bucket_name = none →
        bucketName cfg = cfg.env ++ "-stacks-" ++ cfg.region) ∧
      (∀ b, cfg.templates_bucket_name = some b → bucketName cfg = b) ∧
      (∃ c : ApiCall, RemoteAction.apiCall c ∈
          (createStack md5 cfg arg tpl metadata update false create_on_update
            stackExists apiErr).1 ∧
        c.tpl = TplRef.url (cfg.s3_endpoint ++ "/" ++ bucketName cfg ++ "/" ++
          (cfg.env ++ "/" ++ sn ++ "/" ++ md5 tpl)) ∧
        dictGet? c.tags "MD5Sum" = some (md5 tpl))) := by
  have hact : (createStack md5 cfg arg tpl metadata update false create_on_update
      stackExists apiErr).1 =
      (createStackDispatch md5 cfg sn tpl (resolveTags cfg.env md5 tpl metadata)
        (metaDisableRollback metadata) update create_on_update stackExists).1 ++
      [RemoteAction.apiCall (createStackDispatch md5 cfg sn tpl
        (resolveTags cfg.env md5 tpl metadata) (metaDisableRollback metadata)
        update create_on_update stackExists).2] := by
    rw [createStack_run md5 cfg arg tpl metadata update create_on_update stackExists
      apiErr sn hres]
  refine ⟨?_, ?_⟩
  · intro hle
    have h' : ¬ 51200 < tpl.length := by omega
    obtain ⟨hns, htpl, hsn, -⟩ := dispatch_inline_facts md5 cfg sn tpl
      (resolveTags cfg.env md5 tpl metadata) (metaDisableRollback metadata)
      update create_on_update stackExists h'
    refine ⟨?_, ?_⟩
    · intro b k s hmem
      rw [hact] at hmem
      rcases List.mem_append.mp hmem with hm | hm
      · exact hns b k s hm
      · simp at hm
    · refine ⟨_, ?_, htpl, hsn⟩
      rw [hact]
      exact List.mem_append.mpr (Or.inr (by simp))
  · intro hge
    have h' : 51200 < tpl.length := by omega
    obtain ⟨hput, hurl, hsn, htags⟩ := dispatch_url_facts md5 cfg sn tpl
      (resolveTags cfg.env md5 tpl metadata) (metaDisableRollback metadata)
      update create_on_update stackExists h'
    refine ⟨?_, ?_, ?_, ?_⟩
    · rw [hact]
      exact List.mem_append.mpr (Or.inl hput)
    · intro hnone; simp [bucketName, hnone]
    · intro b hb; simp [bucketName, hb]
    · refine ⟨_, ?_, hurl, ?_⟩
      · rw [hact]
        exact List.mem_append.mpr (Or.inr (by simp))
      · rw [htags]
        exact resolveTags_md5 cfg.env md5 tpl metadata

/-- C6 witness: a body of exactly 51200 characters is sent inline — in
particular its blob-storage upload under the usual bucket and key does not
occur. -/
theorem size_threshold_transport_witness :
    RemoteAction.s3Put (bucketName cfgW) (cfgW.env ++ "/" ++ "my-stack" ++ "/" ++
        md5c tplBoundary) tplBoundary ∉
      (createStack md5c cfgW (some "my-stack") tplBoundary none false false false
        false none).1 :=
  ((size_threshold_transport md5c cfgW (some "my-stack") tplBoundary none false false
    false none "my-stack" (by decide)).1
    (by
      have h : tplBoundary.length = 51200 := by
        show (List.replicate 51200 'a').length = 51200
        rw [List.length_replicate]
      omega)).1 (bucketName cfgW)
    (cfgW.env ++ "/" ++ "my-stack" ++ "/" ++ md5c tplBoundary) tplBoundary

/-- C8: a remote error during create/update whose message contains
"No updates are to be performed" or "already exists" is reported and the
process exits with success; any other remote error exits with failure.  A
remote error during delete whose message contains "does not exist" is benign
success; any other remote delete error is fatal. -/
theorem benign_remote_errors (md5 : String → String) (cfg : Config)
    (arg : Option String) (tpl : String) (metadata : Option MetadataDoc)
    (update create_on_update stackExists : Bool) (sn : String)
    (hres : resolveStackName arg (metaName metadata) = some sn) :
    (∀ msg, (strContainsSub msg "No updates are to be performed" = true ∨
        strContainsSub msg "already exists" = true) →
      (createStack md5 cfg arg tpl metadata update false create_on_update stackExists
        (some msg)).2 = CreateResult.exit0 msg) ∧
    (∀ msg, strContainsSub msg "No updates are to be performed" = false →
        strContainsSub msg "already exists" = false →
      (createStack md5 cfg arg tpl metadata update false create_on_update stackExists
        (some msg)).2 = CreateResult.exit1 msg) ∧
    (∀ (confirm : Bool) (resp msg : String),
      YES.contains (if confirm then "yes" else resp) = true →
      (strContainsSub msg "does not exist" = true →
        deleteStack confirm resp (some msg) = DeleteResult.exit0 msg) ∧
      (strContainsSub msg "does not exist" = false →
        deleteStack confirm resp (some msg) = DeleteResult.exit1 msg)) := by
  refine ⟨?_, ?_, ?_⟩
  · intro msg hb
    rw [createStack_run md5 cfg arg tpl metadata update create_on_update stackExists
      (some msg) sn hres]
    have hany : nonErrorMessages.any (fun s => strContainsSub msg s) = true := by
      rcases hb with h | h <;> simp [nonErrorMessages, h]
    simp [hany]
  · intro msg h1 h2
    rw [createStack_run md5 cfg arg tpl metadata update create_on_update stackExists
      (some msg) sn hres]
    have hany : nonErrorMessages.any (fun s => strContainsSub msg s) = false := by
      simp [nonErrorMessages, h1, h2]
    simp [hany]
  · intro confirm resp msg hyes
    have hmem : (if confirm then "yes" else resp) ∈ YES := List.elem_iff.mp hyes
    exact ⟨fun h => by simp [deleteStack, hmem, h], fun h => by simp [deleteStack, hmem, h]⟩

/-- C8 witness: an "already exists" remote error on create exits with
success status, and a "does not exist" remote error on delete is benign. -/
theorem benign_remote_errors_witness :
    (createStack md5c cfgW (some "s") "tpl" none false false false false
      (some "Stack s already exists")).2 = CreateResult.exit0 "Stack s already exists" :=
  (benign_remote_errors md5c cfgW (some "s") "tpl" none false false false "s"
    (by decide)).1 "Stack s already exists" (Or.inr (by decide))

/-- C9: the stack name is the explicit argument when non-empty, else the
metadata-declared name when non-empty; when the resolution succeeds the
operation proceeds under the resolved name; when both are empty the
operation fails fatally with the stack-name message and performs no remote
action at all. -/
theorem stack_name_resolution (md5 : String → String) (cfg : Config)
    (arg : Option String) (tpl : String) (metadata : Option MetadataDoc)
    (update dry create_on_update stackExists : Bool) (apiErr : Option String) :
    (strFalsy arg = false → resolveStackName arg (metaName metadata) = arg) ∧
    (strFalsy arg = true → strFalsy (metaName metadata) = false →
      resolveStackName arg (metaName metadata) = metaName metadata) ∧
    (∀ sn, resolveStackName arg (metaName metadata) = some sn → dry = false →
      apiErr = none →
      (createStack md5 cfg arg tpl metadata update dry create_on_update stackExists
        apiErr).2 = CreateResult.ok sn) ∧
    (strFalsy arg = true → strFalsy (metaName metadata) = true →
      createStack md5 cfg arg tpl metadata update dry create_on_update stackExists
        apiErr =
        ([], CreateResult.exit1
          "Stack name must be specified via command line argument or stack metadata.")) := by
  refine ⟨?_, ?_, ?_, ?_⟩
  · intro h
    simp [resolveStackName, h]
  · intro h1 h2
    simp [resolveStackName, h1, h2]
  · intro sn hres hdry hapi
    subst hdry
    subst hapi
    rw [createStack_run md5 cfg arg tpl metadata update create_on_update stackExists
      none sn hres]
  · intro h1 h2
    have hres : resolveStackName arg (metaName metadata) = none := by
      simp [resolveStackName, h1, h2]
    unfold createStack
    rw [hres]

/-- C9 witness: when both an explicit name and a metadata name are given,
the explicit name wins. -/
theorem stack_name_resolution_witness :
    resolveStackName (some "cli-name")
      (metaName (some ⟨some "meta-name", none, []⟩)) = some "cli-name" :=
  (stack_name_resolution md5c cfgW (some "cli-name") "tpl"
    (some ⟨some "meta-name", none, []⟩) false false false false none).1 (by decide)

theorem dispatch_update_path (md5 : String → String) (cfg : Config) (sn tpl : String)
    (tags : Dict) (dr : Option Bool) (cou ex : Bool)
    (hpath : cou = false ∨ ex = true) :
    createStackDispatch md5 cfg sn tpl tags dr true cou ex =
      if 51200 < tpl.length then
        (RemoteAction.s3Put (bucketName cfg) (uploadKey cfg md5 tpl sn) tpl ::
            existsChecks true cou sn,
          ApiCall.mk true sn (.url (cfg.s3_endpoint ++ "/" ++ bucketName cfg ++ "/" ++
            uploadKey cfg md5 tpl sn)) tags (some dr))
      else
        (existsChecks true cou sn, ApiCall.mk true sn (.body tpl) tags none) := by
  have hcond : (cou && !ex) = false := by
    rcases hpath with h | h <;> subst h <;> simp
  by_cases h51 : 51200 < tpl.length
  · rw [dispatch_url_spec md5 cfg sn tpl tags dr true cou ex h51, if_pos h51]
    simp [hcond]
  · rw [dispatch_inline_spec md5 cfg sn tpl tags dr true cou ex h51, if_neg h51]
    simp [hcond]

/-- C10: an update issued with a body over 51200 characters (the URL path)
passes the resolved disable_rollback value to the remote update call, while
an update issued with a body of at most 51200 characters (the inline path)
omits the DisableRollback parameter entirely, so a metadata-declared
disable_rollback value is silently ignored for inline updates: the whole
outcome is unchanged when only that metadata field differs. -/
theorem inline_update_omits_disable_rollback (md5 : String → String) (cfg : Config)
    (arg : Option String) (tpl : String) (metadata : Option MetadataDoc)
    (create_on_update stackExists : Bool) (apiErr : Option String) (sn : String)
    (hres : resolveStackName arg (metaName metadata) = some sn)
    (hpath : create_on_update = false ∨ stackExists = true) :
    (51200 < tpl.length →
      RemoteAction.apiCall (ApiCall.mk true sn
        (TplRef.url (cfg.s3_endpoint ++ "/" ++ bucketName cfg ++ "/" ++
          uploadKey cfg md5 tpl sn))
        (resolveTags cfg.env md5 tpl metadata) (some (metaDisableRollback metadata))) ∈
        (createStack md5 cfg arg tpl metadata true false create_on_update stackExists
          apiErr).1) ∧
    (tpl.length ≤ 51200 →
      RemoteAction.apiCall (ApiCall.mk true sn (TplRef.body tpl)
        (resolveTags cfg.env md5 tpl metadata) none) ∈
        (createStack md5 cfg arg tpl metadata true false create_on_update stackExists
          apiErr).1) ∧
    (∀ (nm : Option String) (dr1 dr2 : Option Bool) (tg : List (String × String)),
      tpl.length ≤ 51200 →
      createStack md5 cfg arg tpl (some (MetadataDoc.mk nm dr1 tg)) true false
          create_on_update stackExists apiErr =
        createStack md5 cfg arg tpl (some (MetadataDoc.mk nm dr2 tg)) true false
          create_on_update stackExists apiErr) := by
  have hact : (createStack md5 cfg arg tpl metadata true false create_on_update
      stackExists apiErr).1 =
      (createStackDispatch md5 cfg sn tpl (resolveTags cfg.env md5 tpl metadata)
        (metaDisableRollback metadata) true create_on_update stackExists).1 ++
      [RemoteAction.apiCall (createStackDispatch md5 cfg sn tpl
        (resolveTags cfg.env md5 tpl metadata) (metaDisableRollback metadata)
        true create_on_update stackExists).2] := by
    rw [createStack_run md5 cfg arg tpl metadata true create_on_update stackExists
      apiErr sn hres]
  refine ⟨?_, ?_, ?_⟩
  · intro h51
    rw [hact, dispatch_update_path md5 cfg sn tpl (resolveTags cfg.env md5 tpl metadata)
      (metaDisableRollback metadata) create_on_update stackExists hpath, if_pos h51]
    exact List.mem_append.mpr (Or.inr (by simp))
  · intro hle
    have h51 : ¬ 51200 < tpl.length := by omega
    rw [hact, dispatch_update_path md5 cfg sn tpl (resolveTags cfg.env md5 tpl metadata)
      (metaDisableRollback metadata) create_on_update stackExists hpath, if_neg h51]
    exact List.mem_append.mpr (Or.inr (by simp))
  · intro nm dr1 dr2 tg hle
    have h51 : ¬ 51200 < tpl.length := by omega
    cases h2 : resolveStackName arg (metaName (some (MetadataDoc.mk nm dr1 tg))) with
    | none =>
        unfold createStack
        rw [show resolveStackName arg (metaName (some (MetadataDoc.mk nm dr1 tg)))
          = none from h2]
        rw [show resolveStackName arg (metaName (some (MetadataDoc.mk nm dr2 tg)))
          = none from h2]
    | some s =>
        rw [createStack_run md5 cfg arg tpl (some (MetadataDoc.mk nm dr1 tg)) true
          create_on_update stackExists apiErr s h2]
        rw [createStack_run md5 cfg arg tpl (some (MetadataDoc.mk nm dr2 tg)) true
          create_on_update stackExists apiErr s h2]
        rw [dispatch_update_path md5 cfg s tpl
          (resolveTags cfg.env md5 tpl (some (MetadataDoc.mk nm dr1 tg)))
          (metaDisableRollback (some (MetadataDoc.mk nm dr1 tg)))
          create_on_update stackExists hpath]
        rw [dispatch_update_path md5 cfg s tpl
          (resolveTags cfg.env md5 tpl (some (MetadataDoc.mk nm dr2 tg)))
          (metaDisableRollback (some (MetadataDoc.mk nm dr2 tg)))
          create_on_update stackExists hpath]
        rw [if_neg h51, if_neg h51]
        rfl

/-- C10 witness: an inline update call carries no DisableRollback parameter
even though the metadata declares disable_rollback. -/
theorem inline_update_omits_disable_rollback_witness :
    RemoteAction.apiCall (ApiCall.mk true "s" (TplRef.body "tpl")
      (resolveTags cfgW.env md5c "tpl" (some ⟨none, some true, []⟩)) none) ∈
      (createStack md5c cfgW (some "s") "tpl" (some ⟨none, some true, []⟩) true false
        false false none).1 :=
  (inline_update_omits_disable_rollback md5c cfgW (some "s") "tpl"
    (some ⟨none, some true, []⟩) false false none "s" (by decide)
    (Or.inl rfl)).2.1 (by decide)

/-! ## Variable validator lemmas -/

theorem not_contains_iff (l : List String) (v : String) :
    (!(l.contains v)) = true ↔ v ∉ l := by
  constructor
  · intro h hm
    have hcon : l.contains v = true := List.elem_iff.mpr hm
    rw [hcon] at h
    simp at h
  · intro h
    cases hcon : l.contains v
    · rfl
    · exact absurd (List.elem_iff.mp hcon) h

theorem mem_missingVars (r c b : List String) (v : String) :
    v ∈ missingVars r c b ↔ (v ∈ r ∧ v ∉ c ∧ v ∉ b) := by
  unfold missingVars
  rw [List.mem_filter, Bool.and_eq_true]
  rw [not_contains_iff, not_contains_iff]

/-- C7 amended: the validator computes the missing set as the statically
referenced names minus the configuration keys minus the built-in names; when
that set is non-empty it reports the comma-joined missing names — in the set
iteration order, which is unspecified and not necessarily sorted — and fails
fatally, strictly before variable substitution executes: the outcome does not
depend on the renderer at all. -/
theorem missing_vars_check {Doc : Type} (requiredIter configKeys builtinNames : List String)
    (render render' : Unit → List Doc) :
    (∀ v, v ∈ missingVars requiredIter configKeys builtinNames ↔
      (v ∈ requiredIter ∧ v ∉ configKeys ∧ v ∉ builtinNames)) ∧
    (missingVars requiredIter configKeys builtinNames ≠ [] →
      genTemplate requiredIter configKeys builtinNames render =
        Except.error ("Required properties not set: " ++
          String.intercalate "," (missingVars requiredIter configKeys builtinNames)) ∧
      genTemplate requiredIter configKeys builtinNames render =
        genTemplate requiredIter configKeys builtinNames render') ∧
    (missingVars requiredIter configKeys builtinNames = [] →
      checkMissingVars requiredIter configKeys builtinNames = none) := by
  refine ⟨fun v => mem_missingVars requiredIter configKeys builtinNames v, ?_, ?_⟩
  · intro hne
    have hlen : 0 < (missingVars requiredIter configKeys builtinNames).length :=
      List.length_pos.mpr hne
    have hchk : checkMissingVars requiredIter configKeys builtinNames =
        some ("Required properties not set: " ++
          String.intercalate "," (missingVars requiredIter configKeys builtinNames)) := by
      unfold checkMissingVars
      rw [if_pos hlen]
    constructor
    · unfold genTemplate
      rw [hchk]
    · unfold genTemplate
      rw [hchk]
  · intro he
    unfold checkMissingVars
    rw [if_neg (by simp [he])]

/-- C7 witness: a template referencing a and b with only a configured fails
before rendering with missing name b, whatever the renderer would produce. -/
theorem missing_vars_check_witness :
    genTemplate ["a", "b"] ["a"] [] (fun _ => ([] : List Nat)) =
      Except.error ("Required properties not set: " ++
        String.intercalate "," (missingVars ["a", "b"] ["a"] [])) ∧
    genTemplate ["a", "b"] ["a"] [] (fun _ => ([] : List Nat)) =
      genTemplate ["a", "b"] ["a"] [] (fun _ => ([0] : List Nat)) :=
  (missing_vars_check ["a", "b"] ["a"] [] (fun _ => ([] : List Nat))
    (fun _ => ([0] : List Nat))).2.1 (by decide)

/-- C7 counterexample: the code joins the missing-name set in its iteration
order without sorting.  The orders b,a and a,b describe the same set (they
are permutations of each other), yet the reported message differs and the
first is not the sorted, comma-joined list the claim demands. -/
theorem missing_vars_not_sorted :
    checkMissingVars ["b", "a"] [] [] =
      some ("Required properties not set: " ++ String.intercalate "," ["b", "a"]) ∧
    List.Perm ["b", "a"] ["a", "b"] ∧
    ("Required properties not set: " ++ String.intercalate "," ["b", "a"]) ≠
      ("Required properties not set: " ++ String.intercalate "," ["a", "b"]) := by
  refine ⟨by decide, by decide, by decide⟩

/-- C2 amended: exactly 2 documents yield (body = second, metadata = first);
1 document yields (body = that document, no metadata); 0 documents is a fatal
index error; 3 or more documents yield (body = first document, no metadata)
rather than a fatal error. -/
theorem splitDocs_spec {Doc : Type} :
    (∀ a : Doc, splitDocs [a] = some (a, none)) ∧
    (∀ a b : Doc, splitDocs [a, b] = some (b, some a)) ∧
    splitDocs ([] : List Doc) = none ∧
    (∀ (a b c : Doc) (rest : List Doc), splitDocs (a :: b :: c :: rest) = some (a, none)) := by
  refine ⟨fun a => rfl, fun a b => rfl, rfl, fun a b c rest => ?_⟩
  have hlen : (a :: b :: c :: rest).length ≠ 2 := by
    simp [List.length_cons]
  simp [splitDocs, hlen]

end Stacks
